import Mathlib

/-!
Shallow embedding of the step-response analysis pipeline in `Analysis.py`
(the metrics-extraction script) for the purpose of checking its
specification.  Angles and relative times are modelled as rationals,
clicked coordinates as `Option ℚ` (matplotlib delivers `None` for a click
outside the axes), and the six global point-of-interest lists together
with `action_counter` as an explicit record that the two event handlers
(`onclick`, `on_key`) update.
-/

set_option autoImplicit false

namespace Analysis

/-- The mutable interaction state of one analysis window: the global
`action_counter` and the six point-of-interest lists that `onclick` /
`on_key` append to (re-initialised to empty lists for every `Created`
event, line 118-119 of `Analysis.py`). -/
structure SeqState where
  action_counter : Nat
  rise_time_start : List (Option ℚ)
  rise_time_end : List (Option ℚ)
  settling_time_end : List (Option ℚ)
  overshoot : List (Option ℚ)
  steady_state_error_start : List (Option ℚ)
  steady_state_error_end : List (Option ℚ)
deriving DecidableEq

/-- Lines 62-98 of `Analysis.py`: the mouse-click handler.  It appends the
click's x-coordinate (positions 0-2) or y-coordinate (positions 3-5) to
the list selected by `action_counter` and then unconditionally increments
`action_counter`; at a counter of 6 or more no list is touched but the
counter still advances.  `xdata` / `ydata` are `Option ℚ` because a click
outside the plot axes carries `None` coordinates. -/
def onclick (xdata ydata : Option ℚ) (s : SeqState) : SeqState :=
  let s' :=
    if s.action_counter = 0 then { s with rise_time_start := s.rise_time_start ++ [xdata] }
    else if s.action_counter = 1 then { s with rise_time_end := s.rise_time_end ++ [xdata] }
    else if s.action_counter = 2 then { s with settling_time_end := s.settling_time_end ++ [xdata] }
    else if s.action_counter = 3 then { s with overshoot := s.overshoot ++ [ydata] }
    else if s.action_counter = 4 then { s with steady_state_error_start := s.steady_state_error_start ++ [ydata] }
    else if s.action_counter = 5 then { s with steady_state_error_end := s.steady_state_error_end ++ [ydata] }
    else s
  { s' with action_counter := s'.action_counter + 1 }

/-- Lines 23-60 of `Analysis.py`: the key-press handler, restricted to the
only key it reacts to (`x`, the skip key).  It appends `None` to the list
selected by `action_counter` and then increments `action_counter` (the
increment sits outside the position dispatch, so it fires even at a
counter of 6 or more). -/
def on_key (s : SeqState) : SeqState :=
  let s' :=
    if s.action_counter = 0 then { s with rise_time_start := s.rise_time_start ++ [none] }
    else if s.action_counter = 1 then { s with rise_time_end := s.rise_time_end ++ [none] }
    else if s.action_counter = 2 then { s with settling_time_end := s.settling_time_end ++ [none] }
    else if s.action_counter = 3 then { s with overshoot := s.overshoot ++ [none] }
    else if s.action_counter = 4 then { s with steady_state_error_start := s.steady_state_error_start ++ [none] }
    else if s.action_counter = 5 then { s with steady_state_error_end := s.steady_state_error_end ++ [none] }
    else s
  { s' with action_counter := s'.action_counter + 1 }

/-- One operator input during a window's interaction phase: a mouse click
(with its possibly-absent axis coordinates) or a press of the `x` key. -/
inductive Action where
  | click (xdata ydata : Option ℚ)
  | key_x
deriving DecidableEq

/-- Dispatch one action to its handler. -/
def applyAction : Action → SeqState → SeqState
  | .click x y, s => onclick x y s
  | .key_x, s => on_key s

/-- The fresh state of line 118-119 of `Analysis.py`: counter 0, all six
lists empty. -/
def initState : SeqState := ⟨0, [], [], [], [], [], []⟩

/-- The state reached after a list of operator actions, starting from the
fresh per-window state. -/
def runActions (acts : List Action) : SeqState :=
  acts.foldl (fun s a => applyAction a s) initState

/-- Read the six lists by position index (0 = riseStart .. 5 = steadyEnd);
out-of-range positions read as the empty list. -/
def getSlot (s : SeqState) : Nat → List (Option ℚ)
  | 0 => s.rise_time_start
  | 1 => s.rise_time_end
  | 2 => s.settling_time_end
  | 3 => s.overshoot
  | 4 => s.steady_state_error_start
  | 5 => s.steady_state_error_end
  | _ => []

/-- Line 172 of `Analysis.py`:
`None if rise_time_start[0] is None or rise_time_end[0] is None else
rise_time_end[0] - rise_time_start[0]`, as a function of the two first
entries. -/
def rise_time_value (rts rte : Option ℚ) : Option ℚ :=
  match rts, rte with
  | none, _ => none
  | _, none => none
  | some a, some b => some (b - a)

/-- Line 173 of `Analysis.py`:
`None if settling_time_end[0] is None or rise_time_start[0] is None else
settling_time_end[0] - rise_time_start[0]`. -/
def settling_time_value (ste rts : Option ℚ) : Option ℚ :=
  match ste, rts with
  | none, _ => none
  | _, none => none
  | some c, some a => some (c - a)

/-- Line 139 of `Analysis.py`: `angle_diff = abs(starting_angle - target_angle)`. -/
def angle_diff (starting_angle target_angle : ℚ) : ℚ :=
  |starting_angle - target_angle|

/-- Line 174 of `Analysis.py`:
`None if overshoot[0] is None else
(abs(target_angle - overshoot[0]) / abs(starting_angle - target_angle)) * 100`.
The source has no branch for a zero angle span: the only `None` condition
is a missing peak, so a degenerate span reaches the division (over ℚ the
division is total; in the source the denominator is a numpy float and the
quotient is `inf`). -/
def overshoot_percent (target_angle starting_angle : ℚ) (ov : Option ℚ) : Option ℚ :=
  match ov with
  | none => none
  | some peak => some (|target_angle - peak| / |starting_angle - target_angle| * 100)

/-- Line 175 of `Analysis.py`:
`None if steady_state_error_start[0] is None or steady_state_error_end[0] is None
else abs(((steady_state_error_start[0] + steady_state_error_end[0]) / 2) - target_angle)`. -/
def steady_state_error_value (target_angle : ℚ) (sss sse : Option ℚ) : Option ℚ :=
  match sss, sse with
  | none, _ => none
  | _, none => none
  | some a, some b => some (|((a + b) / 2) - target_angle|)

/-- Faults the analysis run can die with: a Python `IndexError` from
reading `[0]` of an empty list, or the pandas `TypeError` raised by
comparing a datetime column against `None` (line 124 with
`end_time = None`). -/
inductive RunError where
  | indexOutOfBounds
  | noneComparison
deriving DecidableEq

/-- The four per-window metrics of lines 172-175 of `Analysis.py`. -/
structure MetricsResult where
  rise_time_value : Option ℚ
  settling_time_value : Option ℚ
  overshoot_percent : Option ℚ
  steady_state_error_value : Option ℚ
deriving DecidableEq

/-- Lines 172-175 of `Analysis.py`, with Python's evaluation order made
explicit: each `list[0]` on an empty list is an `IndexError` (modelled as
`Except.error`), and the `or` in each condition short-circuits, so e.g. in
line 172 `rise_time_end[0]` is only read when `rise_time_start[0]` is not
`None`, and in line 175 `steady_state_error_end[0]` is only read when
`steady_state_error_start[0]` is not `None`. -/
def computeMetrics (target_angle starting_angle : ℚ) (s : SeqState) :
    Except RunError MetricsResult :=
  match s.rise_time_start with
  | [] => .error .indexOutOfBounds
  | rts0 :: _ =>
    let rtvE : Except RunError (Option ℚ) :=
      match rts0 with
      | none => .ok none
      | some _ =>
        match s.rise_time_end with
        | [] => .error .indexOutOfBounds
        | rte0 :: _ => .ok (rise_time_value rts0 rte0)
    match rtvE with
    | .error e => .error e
    | .ok rtv =>
      match s.settling_time_end with
      | [] => .error .indexOutOfBounds
      | ste0 :: _ =>
        match s.overshoot with
        | [] => .error .indexOutOfBounds
        | ov0 :: _ =>
          match s.steady_state_error_start with
          | [] => .error .indexOutOfBounds
          | sss0 :: _ =>
            match sss0 with
            | none =>
              .ok ⟨rtv, settling_time_value ste0 rts0,
                   overshoot_percent target_angle starting_angle ov0, none⟩
            | some _ =>
              match s.steady_state_error_end with
              | [] => .error .indexOutOfBounds
              | sse0 :: _ =>
                .ok ⟨rtv, settling_time_value ste0 rts0,
                     overshoot_percent target_angle starting_angle ov0,
                     steady_state_error_value target_angle sss0 sse0⟩

/-- An interaction state whose six lists each hold exactly one committed
value, with the counter past the final position: the shape left behind by
a completed six-action interaction phase. -/
def fullState (v0 v1 v2 v3 v4 v5 : Option ℚ) : SeqState :=
  ⟨6, [v0], [v1], [v2], [v3], [v4], [v5]⟩

/-- The two kinds of red-line event in `red_line_events.csv`. -/
inductive EventKind where
  | Created
  | Removed
deriving DecidableEq

/-- One row of `red_line_events.csv`: timestamp, `Red_Line_Angle` and
`Event_Type`.  A `Removed` row leaves the angle column empty (it parses
to NaN) and the script only ever reads the angle of a `Created` row, so
the field is carried as a plain rational. -/
structure Event where
  timestamp : ℚ
  red_line_angle : ℚ
  kind : EventKind
deriving DecidableEq

/-- One row of `angle_data.csv`: timestamp and `Current_Angle`. -/
structure Sample where
  timestamp : ℚ
  current_angle : ℚ
deriving DecidableEq

/-- Line 124 of `Analysis.py`:
`angle_data[(angle_data['Timestamp'] >= start_time) & (angle_data['Timestamp'] < end_time)]`.
When `end_time` is `None` (last event in the log, line 123), evaluating
`angle_data['Timestamp'] < None` on a datetime64 column makes pandas
raise `TypeError` (ordered comparisons against `None` are rejected as an
invalid comparison), so the whole run aborts instead of producing an
open-ended window. -/
def filteredData (trace : List Sample) (start_time : ℚ) (end_time : Option ℚ) :
    Except RunError (List Sample) :=
  match end_time with
  | none => .error .noneComparison
  | some e =>
    .ok (trace.filter fun smp =>
      decide (start_time ≤ smp.timestamp) && decide (smp.timestamp < e))

/-- One per-event report block printed by the script: either the skip
diagnostic of line 128 (carrying the 1-based `event_counter`) or the
metrics block of lines 169-186. -/
inductive Block where
  | skip (ordinal : Nat)
  | metrics (ordinal : Nat) (result : MetricsResult)
deriving DecidableEq

/-- What one run of the script leaves on the terminal: the report blocks
emitted before the run ended, and the uncaught fault that aborted it, if
any. -/
structure RunResult where
  blocks : List Block
  fault : Option RunError
deriving DecidableEq

/-- Lines 115-186 of `Analysis.py`: the event loop.  For each `Created`
event it increments `event_counter`, takes `end_time` from the next
logged event of either kind (or `None` for the last event), filters the
angle trace, emits the skip diagnostic when the filtered data is empty,
and otherwise runs the interaction phase (whose outcome per window the
`oracle` supplies, indexed by `event_counter`) followed by the metrics
computation of lines 172-175, whose uncaught faults abort the run.
`Removed` events fall through (and only serve as window terminators via
the lookahead). -/
def runEvents (trace : List Sample) (oracle : Nat → SeqState) :
    List Event → Nat → RunResult
  | [], _ => ⟨[], none⟩
  | e :: rest, event_counter =>
    match e.kind with
    | .Removed => runEvents trace oracle rest event_counter
    | .Created =>
      let n := event_counter + 1
      match filteredData trace e.timestamp (rest.head?.map Event.timestamp) with
      | .error err => ⟨[], some err⟩
      | .ok [] =>
        let r := runEvents trace oracle rest n
        ⟨Block.skip n :: r.blocks, r.fault⟩
      | .ok (a :: _) =>
        match computeMetrics e.red_line_angle a.current_angle (oracle n) with
        | .error err => ⟨[], some err⟩
        | .ok m =>
          let r := runEvents trace oracle rest n
          ⟨Block.metrics n m :: r.blocks, r.fault⟩

/-- The whole analysis run: the event loop started with `event_counter = 0`
(line 112 of `Analysis.py`). -/
def runPipeline (events : List Event) (trace : List Sample)
    (oracle : Nat → SeqState) : RunResult :=
  runEvents trace oracle events 0

/-- The number of `Created` rows in the event log. -/
def countCreated (events : List Event) : Nat :=
  (events.filter fun e => decide (e.kind = EventKind.Created)).length

/-- An interaction state in which every one of the six lists received at
least one entry — the shape required for lines 172-175 to run without an
`IndexError`. -/
def completeState (s : SeqState) : Prop :=
  s.rise_time_start ≠ [] ∧ s.rise_time_end ≠ [] ∧ s.settling_time_end ≠ [] ∧
    s.overshoot ≠ [] ∧ s.steady_state_error_start ≠ [] ∧ s.steady_state_error_end ≠ []

instance (s : SeqState) : Decidable (completeState s) := by
  unfold completeState; infer_instance

/-- Lines 140-143 of `Analysis.py`: `tenper = angle_diff * 0.1` and
`tenperline = starting_angle + (tenper if target_angle > starting_angle else -tenper)`. -/
def tenperline (starting_angle target_angle : ℚ) : ℚ :=
  starting_angle +
    (if target_angle > starting_angle then angle_diff starting_angle target_angle * (1/10)
     else -(angle_diff starting_angle target_angle * (1/10)))

/-- Lines 141-143 of `Analysis.py`: `ninper = angle_diff * 0.9` and
`ninperline = starting_angle + (ninper if target_angle > starting_angle else -ninper)`. -/
def ninperline (starting_angle target_angle : ℚ) : ℚ :=
  starting_angle +
    (if target_angle > starting_angle then angle_diff starting_angle target_angle * (9/10)
     else -(angle_diff starting_angle target_angle * (9/10)))

/-- Lines 144-145 of `Analysis.py`: `five_percent_difference = angle_diff * 0.05` and
`five_percent_above = target_angle + (five_percent_difference if target_angle > starting_angle else -five_percent_difference)`. -/
def five_percent_above (starting_angle target_angle : ℚ) : ℚ :=
  target_angle +
    (if target_angle > starting_angle then angle_diff starting_angle target_angle * (1/20)
     else -(angle_diff starting_angle target_angle * (1/20)))

/-- Line 146 of `Analysis.py`:
`five_percent_below = target_angle - (five_percent_difference if target_angle > starting_angle else -five_percent_difference)`. -/
def five_percent_below (starting_angle target_angle : ℚ) : ℚ :=
  target_angle -
    (if target_angle > starting_angle then angle_diff starting_angle target_angle * (1/20)
     else -(angle_diff starting_angle target_angle * (1/20)))

/-- The value an action commits when it fires at position `i`: a click
commits its x-coordinate at positions 0-2 and its y-coordinate at
positions 3-5; the `x` key always commits the absent marker. -/
def commitAt (i : Nat) : Action → Option ℚ
  | .click x y => if i < 3 then x else y
  | .key_x => none

/-- The values a run of actions commits, position by position starting at
`i`. -/
def commits : List Action → Nat → List (Option ℚ)
  | [], _ => []
  | a :: as, i => commitAt i a :: commits as (i + 1)

/-- A one-entry list when the optional entry is there, else empty. -/
def optSlot : Option (Option ℚ) → List (Option ℚ)
  | none => []
  | some v => [v]

/-- The interaction state in which the first `vs.length` positions hold
the committed values `vs` (one entry each) and the remaining lists are
still empty: the shape reached after `vs.length ≤ 6` actions. -/
def mkPartial (vs : List (Option ℚ)) : SeqState :=
  ⟨vs.length, optSlot vs[0]?, optSlot vs[1]?, optSlot vs[2]?,
    optSlot vs[3]?, optSlot vs[4]?, optSlot vs[5]?⟩

/-- Concrete interaction oracle for the closed-instance theorems: every
window's interaction phase ends with all six positions selected. -/
def wOracle : Nat → SeqState :=
  fun _ => fullState (some 1) (some 1) (some 1) (some 1) (some 1) (some 1)

/-- Concrete event log whose last (and only) event is `Created`. -/
def wEvents : List Event := [⟨0, 90, .Created⟩]

/-- Concrete event log ending in a `Removed` event. -/
def wEvents2 : List Event := [⟨0, 90, .Created⟩, ⟨10, 0, .Removed⟩]

/-- Concrete angle trace: one sample, taken after the `Created` event. -/
def wTrace : List Sample := [⟨1, 50⟩]

/-- Concrete mid-interaction state (two positions already committed). -/
def wState : SeqState := ⟨2, [some 1], [some 2], [], [], [], []⟩

/-- Five concrete actions: four in-axes clicks and then the skip key, so
the fifth position (steadyStart) holds the absent marker and the sixth
list stays empty. -/
def acts5 : List Action :=
  [.click (some 1) (some 1), .click (some 2) (some 2), .click (some 3) (some 3),
   .click (some 4) (some 4), .key_x]

/-! ## Theorems -/

/-- Claim C10: a click whose axis data is absent (outside the plot axes)
commits the absent marker verbatim, so the resulting interaction state —
and hence everything computed from it — is identical to the state an
explicit skip (`x` key) would have produced, at every position. -/
theorem click_outside_axes_eq_skip : ∀ s : SeqState, onclick none none s = on_key s :=
  fun _ => rfl

/-- Claim C1 (code evaluated at the failing input): line 174 guards only
on a missing peak, not on a degenerate angle span, so with
`startingAngle = targetAngle = 90` and `peak = 95` the computed
`overshoot_percent` is not the absent marker even though the denominator
`angle_diff 90 90` is zero — the division is reached unguarded (in the
source it divides by a zero numpy float). -/
theorem overshoot_zero_span_unguarded :
    overshoot_percent 90 90 (some 95) ≠ none ∧ angle_diff 90 90 = 0 := by
  refine ⟨by simp [overshoot_percent], by norm_num [angle_diff]⟩

/-- Claim C3: on a six-slot interaction state the metrics computation
always succeeds, and each of the four metrics is absent exactly when one
of its required slots is absent (riseTime: riseStart, riseEnd;
settlingTime: settleEnd, riseStart; overshootPercent: peak;
steadyStateError: steadyStart, steadyEnd); in particular the absence of
one metric's slots never blocks the other three. -/
theorem metrics_absence_iff (t a : ℚ) (v0 v1 v2 v3 v4 v5 : Option ℚ) :
    ∃ r, computeMetrics t a (fullState v0 v1 v2 v3 v4 v5) = .ok r ∧
      (r.rise_time_value = none ↔ (v0 = none ∨ v1 = none)) ∧
      (r.settling_time_value = none ↔ (v2 = none ∨ v0 = none)) ∧
      (r.overshoot_percent = none ↔ v3 = none) ∧
      (r.steady_state_error_value = none ↔ (v4 = none ∨ v5 = none)) := by
  rcases v0 with _ | a0 <;> rcases v1 with _ | a1 <;> rcases v2 with _ | a2 <;>
    rcases v3 with _ | a3 <;> rcases v4 with _ | a4 <;> rcases v5 with _ | a5 <;>
    exact ⟨_, rfl, by
      simp [rise_time_value, settling_time_value, overshoot_percent,
        steady_state_error_value]⟩

/-- Claim C4: whenever riseStart and settleEnd hold values, the settling
time is `settleEnd - riseStart` — anchored to the rise-time start
selection, not to the window's own start; in particular riseStart = 0.10
and settleEnd = 0.90 give 0.80 seconds. -/
theorem settling_time_anchored :
    (∀ (t sa a c : ℚ) (v1 v3 v4 v5 : Option ℚ),
      ∃ r, computeMetrics t sa (fullState (some a) v1 (some c) v3 v4 v5) = .ok r ∧
        r.settling_time_value = some (c - a)) ∧
    (∃ r, computeMetrics 140 40
        (fullState (some (1/10)) (some (2/5)) (some (9/10)) none none none) = .ok r ∧
      r.settling_time_value = some (4/5)) := by
  constructor
  · intro t sa a c v1 v3 v4 v5
    rcases v4 with _ | a4 <;> exact ⟨_, rfl, rfl⟩
  · exact ⟨_, rfl, by norm_num [settling_time_value]⟩

/-- Claim C8: whenever steadyStart and steadyEnd hold values, the
steady-state error is `|((steadyStart + steadyEnd) / 2) - targetAngle|` —
an absolute angular difference, not a percentage of the span; in
particular steadyStart = 138, steadyEnd = 142, targetAngle = 140 give 0. -/
theorem steady_state_error_absolute :
    (∀ (t sa e f : ℚ) (v0 v1 v2 v3 : Option ℚ),
      ∃ r, computeMetrics t sa (fullState v0 v1 v2 v3 (some e) (some f)) = .ok r ∧
        r.steady_state_error_value = some (|((e + f) / 2) - t|)) ∧
    (∃ r, computeMetrics 140 40
        (fullState none none none none (some 138) (some 142)) = .ok r ∧
      r.steady_state_error_value = some 0) := by
  constructor
  · intro t sa e f v0 v1 v2 v3
    rcases v0 with _ | a0 <;> exact ⟨_, rfl, rfl⟩
  · exact ⟨_, rfl, by norm_num [steady_state_error_value]⟩

/-- Claim C5: for `targetAngle > startingAngle` the computed threshold
lines satisfy `tenperline < ninperline < targetAngle` and
`five_percent_below < targetAngle < five_percent_above`, and the mirrored
strict inequalities hold when `targetAngle < startingAngle`. -/
theorem threshold_line_ordering (sa t : ℚ) :
    (t > sa →
      tenperline sa t < ninperline sa t ∧ ninperline sa t < t ∧
      five_percent_below sa t < t ∧ t < five_percent_above sa t) ∧
    (t < sa →
      ninperline sa t < tenperline sa t ∧ t < ninperline sa t ∧
      t < five_percent_below sa t ∧ five_percent_above sa t < t) := by
  constructor
  · intro h
    have hd : angle_diff sa t = t - sa := by
      rw [angle_diff, abs_sub_comm]
      exact abs_of_pos (by linarith)
    simp only [tenperline, ninperline, five_percent_above, five_percent_below,
      if_pos h, hd]
    refine ⟨by linarith, by linarith, by linarith, by linarith⟩
  · intro h
    have hd : angle_diff sa t = sa - t := by
      rw [angle_diff]
      exact abs_of_pos (by linarith)
    have hns : ¬ (t > sa) := by linarith
    simp only [tenperline, ninperline, five_percent_above, five_percent_below,
      if_neg hns, hd]
    refine ⟨by linarith, by linarith, by linarith, by linarith⟩

/-- Claim C5, closed instance: the threshold ordering at
startingAngle = 40, targetAngle = 140 and at the mirrored pair
startingAngle = 140, targetAngle = 40. -/
theorem threshold_line_ordering_witness :
    ((140:ℚ) > 40 ∧
      (tenperline 40 140 < ninperline 40 140 ∧ ninperline 40 140 < 140 ∧
       five_percent_below 40 140 < 140 ∧ 140 < five_percent_above 40 140)) ∧
    ((40:ℚ) < 140 ∧
      (ninperline 140 40 < tenperline 140 40 ∧ 40 < ninperline 140 40 ∧
       40 < five_percent_below 140 40 ∧ five_percent_above 140 40 < 40)) := by
  have h1 : (140:ℚ) > 40 := by norm_num
  have h2 : (40:ℚ) < 140 := by norm_num
  exact ⟨⟨h1, (threshold_line_ordering 40 140).1 h1⟩,
    ⟨h2, (threshold_line_ordering 140 40).2 h2⟩⟩

/-- Claim C7: both actions advance `action_counter` by exactly one, and at
a position `p < 6` each action appends exactly one value to slot `p` (the
click's x-coordinate at positions 0-2, its y-coordinate at positions 3-5,
the absent marker for the skip key) leaving every other slot unchanged,
while after position 5's action (counter at least 6) no action modifies
any slot. -/
theorem sequencer_step (s : SeqState) (x y : Option ℚ) :
    (onclick x y s).action_counter = s.action_counter + 1 ∧
    (on_key s).action_counter = s.action_counter + 1 ∧
    (∀ p : Nat, p < 6 →
      (getSlot (onclick x y s) p =
        if p = s.action_counter then getSlot s p ++ [if p < 3 then x else y]
        else getSlot s p) ∧
      (getSlot (on_key s) p =
        if p = s.action_counter then getSlot s p ++ [none] else getSlot s p)) ∧
    (6 ≤ s.action_counter →
      ∀ p : Nat, getSlot (onclick x y s) p = getSlot s p ∧
        getSlot (on_key s) p = getSlot s p) := by
  obtain ⟨c, L0, L1, L2, L3, L4, L5⟩ := s
  rcases c with _ | _ | _ | _ | _ | _ | c' <;>
    refine ⟨rfl, rfl, ?_, ?_⟩ <;>
      first
      | (intro p hp
         interval_cases p <;> exact ⟨rfl, rfl⟩)
      | (intro h p
         refine ⟨?_, ?_⟩ <;> (rcases p with _ | _ | _ | _ | _ | _ | q <;> rfl))
      | (intro h
         exact absurd h (by simp))

/-- Claim C7, closed instance: a click at position 2 of a mid-interaction
state appends its x-coordinate to slot 2, and at a terminal state (counter
6) the skip key leaves slot 3 untouched. -/
theorem sequencer_step_witness :
    (2 < 6 ∧
      getSlot (onclick (some 7) (some 8) wState) 2 = getSlot wState 2 ++ [some 7]) ∧
    (6 ≤ (fullState none none none none none none).action_counter ∧
      getSlot (on_key (fullState none none none none none none)) 3 =
        getSlot (fullState none none none none none none) 3) := by
  have h := ((sequencer_step wState (some 7) (some 8)).2.2.1 2 (by norm_num)).1
  have h6 := (sequencer_step (fullState none none none none none none) none none).2.2.2
    Nat.le.refl 3
  refine ⟨⟨by norm_num, ?_⟩, ⟨Nat.le.refl, h6.2⟩⟩
  rw [h]
  simp [wState]

/-- One action fired at a state holding the first `vs.length < 6`
committed values appends its committed value at the current position. -/
theorem applyAction_mkPartial (vs : List (Option ℚ)) (a : Action) (h : vs.length < 6) :
    applyAction a (mkPartial vs) = mkPartial (vs ++ [commitAt vs.length a]) := by
  rcases vs with _ | ⟨v0, _ | ⟨v1, _ | ⟨v2, _ | ⟨v3, _ | ⟨v4, _ | ⟨v5, tl⟩⟩⟩⟩⟩⟩ <;>
    first
    | (rcases a with ⟨ax, ay⟩ | _ <;> rfl)
    | (exfalso; simp at h; omega)

/-- Folding a run of actions over a partially filled state commits their
values position by position, as long as the total stays within the six
positions. -/
theorem foldl_applyAction_mkPartial (acts : List Action) :
    ∀ vs : List (Option ℚ), vs.length + acts.length ≤ 6 →
      acts.foldl (fun s a => applyAction a s) (mkPartial vs) =
        mkPartial (vs ++ commits acts vs.length) := by
  induction acts with
  | nil => intro vs _; simp [commits]
  | cons a as ih =>
    intro vs h
    have hlt : vs.length < 6 := by simp at h; omega
    rw [List.foldl_cons, applyAction_mkPartial vs a hlt,
      ih (vs ++ [commitAt vs.length a]) (by simp at h ⊢; omega)]
    simp [commits]

/-- The state after at most six actions from the fresh state is exactly
the partial state of their committed values. -/
theorem runActions_eq_mkPartial (acts : List Action) (h : acts.length ≤ 6) :
    runActions acts = mkPartial (commits acts 0) := by
  have := foldl_applyAction_mkPartial acts [] (by simpa using h)
  simpa [runActions, initState, mkPartial] using this

/-- A run of actions commits one value per action. -/
theorem commits_length (acts : List Action) : ∀ i : Nat, (commits acts i).length = acts.length := by
  induction acts with
  | nil => intro i; rfl
  | cons a as ih => intro i; simp [commits, ih]

/-- The value committed at offset `j` of a run of actions starting at
position `i` is the `j`-th action's committed value at position `i + j`. -/
theorem commits_getElem (acts : List Action) :
    ∀ i j : Nat, (commits acts i)[j]? = (acts[j]?).map (commitAt (i + j)) := by
  induction acts with
  | nil => intro i j; simp [commits]
  | cons a as ih =>
    intro i j
    cases j with
    | zero => simp [commits]
    | succ j =>
      have h : i + 1 + j = i + (j + 1) := by omega
      simp [commits, ih (i + 1) j, h]

/-- On a state holding fewer than six committed values, the metrics
computation of lines 172-175 dies with an index fault — except in the one
short-circuit case of five values whose fifth is the absent marker. -/
theorem computeMetrics_partial_err (t a : ℚ) (vs : List (Option ℚ))
    (hlen : vs.length < 6) (hexc : ¬ (vs.length = 5 ∧ vs[4]? = some none)) :
    computeMetrics t a (mkPartial vs) = .error .indexOutOfBounds := by
  rcases vs with _ | ⟨v0, _ | ⟨v1, _ | ⟨v2, _ | ⟨v3, _ | ⟨v4, _ | ⟨v5, tl⟩⟩⟩⟩⟩⟩
  · rfl
  · rcases v0 with _ | a0 <;> rfl
  · rcases v0 with _ | a0 <;> rfl
  · rcases v0 with _ | a0 <;> rfl
  · rcases v0 with _ | a0 <;> rfl
  · rcases v4 with _ | a4
    · exact absurd ⟨rfl, rfl⟩ hexc
    · rcases v0 with _ | a0 <;> rfl
  · exfalso; simp at hlen; omega

/-- Claim C9 (counterexample to the claim as stated): an interaction phase
of exactly five actions whose fifth is a skip does NOT fail — line 175's
short-circuiting `or` never reads the empty sixth list, and the metrics
complete with steadyStateError absent. -/
theorem metrics_five_actions_no_fault :
    acts5.length < 6 ∧
    computeMetrics 140 40 (runActions acts5) =
      .ok ⟨some 1, some 2, some 136, none⟩ := by
  refine ⟨by norm_num [acts5], ?_⟩
  have hstate : runActions acts5 = mkPartial [some 1, some 2, some 3, some 4, none] := rfl
  rw [hstate]
  have hov : overshoot_percent 140 40 (some 4) = some 136 := by
    rw [overshoot_percent]
    norm_num
  have hrt : rise_time_value (some 1) (some 2) = some 1 := by
    rw [rise_time_value]; norm_num
  have hst : settling_time_value (some 3) (some 1) = some 2 := by
    rw [settling_time_value]; norm_num
  calc computeMetrics 140 40 (mkPartial [some 1, some 2, some 3, some 4, none])
      = .ok ⟨rise_time_value (some 1) (some 2), settling_time_value (some 3) (some 1),
             overshoot_percent 140 40 (some 4), none⟩ := rfl
    _ = .ok ⟨some 1, some 2, some 136, none⟩ := by rw [hov, hrt, hst]

/-- Claim C9 (amended): the metrics computation reads the six slots in a
fixed order with short-circuiting, so an interaction phase that ends after
fewer than six actions makes it fail with an out-of-bounds slot access —
except in the single case of exactly five actions whose fifth commits the
absent marker into steadyStart, where the metrics complete instead (with
steadyStateError absent). -/
theorem metrics_incomplete_run_fails (t a : ℚ) (acts : List Action)
    (hlen : acts.length < 6)
    (hexc : ¬ (acts.length = 5 ∧ (acts[4]?).map (commitAt 4) = some none)) :
    computeMetrics t a (runActions acts) = .error .indexOutOfBounds := by
  rw [runActions_eq_mkPartial acts (by omega)]
  apply computeMetrics_partial_err
  · rw [commits_length]; exact hlen
  · rintro ⟨h5, h4⟩
    apply hexc
    refine ⟨by rwa [commits_length] at h5, ?_⟩
    rw [commits_getElem] at h4
    simpa using h4

/-- Claim C9 (amended), closed instance: a single skip action leaves five
lists empty and the metrics computation fails with the index fault. -/
theorem metrics_incomplete_run_fails_witness :
    (([Action.key_x] : List Action).length < 6 ∧
      ¬ (([Action.key_x] : List Action).length = 5 ∧
        (([Action.key_x] : List Action)[4]?).map (commitAt 4) = some none)) ∧
    computeMetrics 140 40 (runActions [Action.key_x]) = .error .indexOutOfBounds := by
  have h1 : ([Action.key_x] : List Action).length < 6 := by norm_num
  have h2 : ¬ (([Action.key_x] : List Action).length = 5 ∧
      (([Action.key_x] : List Action)[4]?).map (commitAt 4) = some none) := by simp
  exact ⟨⟨h1, h2⟩, metrics_incomplete_run_fails 140 40 [Action.key_x] h1 h2⟩

/-- The metrics computation succeeds on any interaction state whose six
lists are all non-empty. -/
theorem computeMetrics_complete (t a : ℚ) (s : SeqState) (h : completeState s) :
    ∃ r, computeMetrics t a s = .ok r := by
  obtain ⟨c, L0, L1, L2, L3, L4, L5⟩ := s
  obtain ⟨h0, h1, h2, h3, h4, h5⟩ := h
  rcases L0 with _ | ⟨x0, L0⟩; · exact absurd rfl h0
  rcases L1 with _ | ⟨x1, L1⟩; · exact absurd rfl h1
  rcases L2 with _ | ⟨x2, L2⟩; · exact absurd rfl h2
  rcases L3 with _ | ⟨x3, L3⟩; · exact absurd rfl h3
  rcases L4 with _ | ⟨x4, L4⟩; · exact absurd rfl h4
  rcases L5 with _ | ⟨x5, L5⟩; · exact absurd rfl h5
  rcases x0 with _ | a0 <;> rcases x4 with _ | a4 <;> exact ⟨_, rfl⟩

/-- A `Created` head contributes one to the `Created` count. -/
theorem countCreated_cons_created (ts ang : ℚ) (rest : List Event) :
    countCreated (⟨ts, ang, .Created⟩ :: rest) = countCreated rest + 1 := by
  simp [countCreated]

/-- A `Removed` head contributes nothing to the `Created` count. -/
theorem countCreated_cons_removed (ts ang : ℚ) (rest : List Event) :
    countCreated (⟨ts, ang, .Removed⟩ :: rest) = countCreated rest := by
  simp [countCreated]

/-- Helper for claim C6: when every window's interaction phase is
complete and the log does not end in a `Created` event, the event loop
finishes without a fault and emits one block per `Created` event,
whatever the starting value of `event_counter`. -/
theorem runEvents_blocks (trace : List Sample) (oracle : Nat → SeqState)
    (hcomp : ∀ n, completeState (oracle n)) :
    ∀ (events : List Event) (k : Nat),
      (∀ e, events.getLast? = some e → e.kind ≠ EventKind.Created) →
      (runEvents trace oracle events k).fault = none ∧
      (runEvents trace oracle events k).blocks.length = countCreated events := by
  intro events
  induction events with
  | nil => intro k _; exact ⟨rfl, rfl⟩
  | cons e rest ih =>
    intro k hlast
    obtain ⟨ts, ang, kind⟩ := e
    rcases kind with _ | _
    · -- Created head: the log cannot end here
      rcases rest with _ | ⟨f, rest'⟩
      · exact absurd rfl (hlast ⟨ts, ang, .Created⟩ (by simp))
      · have hnext := ih (k + 1) (fun e' he' => hlast e' (by rwa [List.getLast?_cons_cons]))
        rcases hres : trace.filter (fun smp =>
            decide (ts ≤ smp.timestamp) && decide (smp.timestamp < f.timestamp))
          with _ | ⟨a, ftl⟩
        · have hstep : runEvents trace oracle (⟨ts, ang, .Created⟩ :: f :: rest') k =
              ⟨Block.skip (k + 1) :: (runEvents trace oracle (f :: rest') (k + 1)).blocks,
               (runEvents trace oracle (f :: rest') (k + 1)).fault⟩ := by
            simp only [runEvents, filteredData, List.head?_cons, Option.map_some', hres]
          rw [hstep]
          exact ⟨hnext.1, by simp [countCreated_cons_created, hnext.2]⟩
        · obtain ⟨m, hm⟩ :=
            computeMetrics_complete ang a.current_angle (oracle (k + 1)) (hcomp (k + 1))
          have hstep : runEvents trace oracle (⟨ts, ang, .Created⟩ :: f :: rest') k =
              ⟨Block.metrics (k + 1) m ::
                  (runEvents trace oracle (f :: rest') (k + 1)).blocks,
               (runEvents trace oracle (f :: rest') (k + 1)).fault⟩ := by
            simp only [runEvents, filteredData, List.head?_cons, Option.map_some', hres, hm]
          rw [hstep]
          exact ⟨hnext.1, by simp [countCreated_cons_created, hnext.2]⟩
    · -- Removed head: falls through to the rest of the log
      have hrest : ∀ e', rest.getLast? = some e' → e'.kind ≠ EventKind.Created := by
        rcases rest with _ | ⟨f, rest'⟩
        · intro e' he'; cases he'
        · intro e' he'; exact hlast e' (by rwa [List.getLast?_cons_cons])
      have h' := ih k hrest
      exact ⟨h'.1, by rw [countCreated_cons_removed]; exact h'.2⟩

/-- Claim C6 (counterexample to the claim as stated): an event log whose
single event is `Created` yields zero report blocks — the open-ended
window's filter comparison faults and the run aborts — although the log
contains one `Created` event. -/
theorem single_created_event_no_block :
    runPipeline wEvents wTrace wOracle = ⟨[], some RunError.noneComparison⟩ ∧
    countCreated wEvents = 1 ∧
    (runPipeline wEvents wTrace wOracle).blocks.length ≠ countCreated wEvents :=
  ⟨rfl, rfl, by decide⟩

/-- Claim C6 (amended): provided every window's interaction phase is
complete and the log does not end in a `Created` event, each `Created`
event yields exactly one report block (a skip diagnostic carrying its
1-based ordinal when its filtered sample set is empty, otherwise a
metrics block), so the number of blocks equals the number of `Created`
events; `Removed` events yield no block (they only bound the preceding
window's sample range). When the log ends in a `Created` event the run
instead aborts at that window's open-ended filter comparison. -/
theorem report_blocks_eq_created (events : List Event) (trace : List Sample)
    (oracle : Nat → SeqState) (hcomp : ∀ n, completeState (oracle n))
    (hlast : ∀ e, events.getLast? = some e → e.kind ≠ EventKind.Created) :
    (runPipeline events trace oracle).fault = none ∧
    (runPipeline events trace oracle).blocks.length = countCreated events :=
  runEvents_blocks trace oracle hcomp events 0 hlast

/-- Claim C6 (amended), closed instance: a `Created` event followed by a
`Removed` event produces exactly one block and no fault. -/
theorem report_blocks_eq_created_witness :
    ((∀ n, completeState (wOracle n)) ∧
      (∀ e, wEvents2.getLast? = some e → e.kind ≠ EventKind.Created)) ∧
    ((runPipeline wEvents2 wTrace wOracle).fault = none ∧
      (runPipeline wEvents2 wTrace wOracle).blocks.length = countCreated wEvents2) := by
  have h1 : ∀ n, completeState (wOracle n) := by
    intro n; simp [wOracle, fullState, completeState]
  have h2 : ∀ e, wEvents2.getLast? = some e → e.kind ≠ EventKind.Created := by
    intro e he
    simp [wEvents2] at he
    subst he
    decide
  exact ⟨⟨h1, h2⟩, report_blocks_eq_created wEvents2 wTrace wOracle h1 h2⟩

/-- Claim C2 (code evaluated at the failing input): for the last event of
the log, `end_time` is `None` and line 124's comparison of the timestamp
column against `None` faults, so the supposedly open-ended window absorbs
nothing and the run aborts — even though a sample with timestamp at or
after the window's start exists (the trace's sample at time 1 versus a
start of 0). -/
theorem last_event_window_unbounded_fails :
    filteredData wTrace 0 none = .error RunError.noneComparison ∧
    (0:ℚ) ≤ (1:ℚ) ∧
    (runPipeline wEvents wTrace wOracle).fault = some RunError.noneComparison ∧
    (runPipeline wEvents wTrace wOracle).blocks = [] := by
  refine ⟨rfl, by norm_num, rfl, rfl⟩

end Analysis
